import Mathlib

/-!
Verification of the input-validation and cost-aggregation layer of the
parts-tracker application (src/utils/validationUtils.js).

Modelling conventions:
* Finite JavaScript numbers are modelled as exact rationals.
* A raw dynamic input (string, number, null, undefined) is the inductive
  type `RawInput`.
* `parseFloat` and `parseInt(_, 10)` are modelled over strings following
  the ECMAScript grammar: leading whitespace is skipped, an optional sign
  and the longest valid numeric prefix are consumed, and a failed parse
  yields NaN, modelled as `JSNum.nan` resp. `none`.
* The optional toast notification sink is modelled by a presence flag;
  every message passed to the warning channel is collected in a returned
  trace list, so sink interaction is observable.
* All model functions are total Lean functions, mirroring the fact that
  the JavaScript layer never throws and always returns a structured value.
-/

namespace PartsTracker

attribute [local semireducible] Rat.add Rat.mul Rat.inv Rat.sub Rat.ofScientific

/-- Raw dynamic input to a validator: a JS string, a finite JS number
(modelled as an exact rational), null, or undefined. -/
inductive RawInput
  | str (s : String)
  | num (q : ℚ)
  | null
  | undefined
deriving DecidableEq

/-- Result of a JS numeric parse: NaN, a signed infinity, or a finite value. -/
inductive JSNum
  | nan
  | posInf
  | negInf
  | fin (q : ℚ)
deriving DecidableEq

/-- Numeric value of a list of decimal digit characters. -/
def digitsToNat (ds : List Char) : ℕ :=
  ds.foldl (fun acc c => 10 * acc + (c.toNat - '0'.toNat)) 0

/-- JS StrWhiteSpace characters that parseFloat and parseInt skip. -/
def isJsSpace (c : Char) : Bool :=
  c = ' ' ∨ c = '\t' ∨ c = '\n' ∨ c = '\r'

/-- Strip one optional leading sign; returns (isNegative, rest). -/
def stripSign : List Char → Bool × List Char
  | [] => (false, [])
  | c :: cs =>
    if c = '-' then (true, cs)
    else if c = '+' then (false, cs)
    else (false, c :: cs)

/-- Parse an optional exponent part (e or E, optional sign, digits) after a
mantissa; yields 0 when no well-formed exponent prefix follows, since the
longest valid numeric prefix then stops before the letter. -/
def parseExponent (cs : List Char) : ℤ :=
  match cs with
  | [] => 0
  | c :: rest =>
    if c = 'e' ∨ c = 'E' then
      let (eneg, rest2) := stripSign rest
      let ds := rest2.takeWhile Char.isDigit
      if ds.isEmpty then 0
      else if eneg then -(digitsToNat ds : ℤ) else (digitsToNat ds : ℤ)
    else 0

/-- Parse the longest unsigned decimal-literal prefix: digits, an optional
fraction, an optional exponent. `none` when not a single digit is present,
which is the NaN case of the ECMAScript grammar. -/
def parseUnsigned (cs : List Char) : Option ℚ :=
  let ip := cs.takeWhile Char.isDigit
  let r1 := cs.dropWhile Char.isDigit
  match r1 with
  | '.' :: r2 =>
    let fp := r2.takeWhile Char.isDigit
    let r3 := r2.dropWhile Char.isDigit
    if ip.isEmpty ∧ fp.isEmpty then none
    else
      some (((digitsToNat ip : ℚ) + (digitsToNat fp : ℚ) / ((10 : ℚ) ^ fp.length))
        * (10 : ℚ) ^ (parseExponent r3))
  | _ =>
    if ip.isEmpty then none
    else some ((digitsToNat ip : ℚ) * (10 : ℚ) ^ (parseExponent r1))

/-- Model of JS parseFloat on a string: skip leading whitespace, read an
optional sign, then either the literal Infinity or the longest unsigned
decimal-literal prefix; NaN when nothing parses. -/
def strParseFloat (s : String) : JSNum :=
  let cs := s.toList.dropWhile isJsSpace
  let (neg, cs1) := stripSign cs
  if cs1.take 8 = "Infinity".toList then
    if neg then JSNum.negInf else JSNum.posInf
  else
    match parseUnsigned cs1 with
    | none => JSNum.nan
    | some q => JSNum.fin (if neg then -q else q)

/-- Model of JS parseInt(s, 10): skip leading whitespace, read an optional
sign, then the longest prefix of decimal digits; NaN (`none`) when there is
no digit. -/
def strParseInt (s : String) : Option ℤ :=
  let cs := s.toList.dropWhile isJsSpace
  let (neg, cs1) := stripSign cs
  let ds := cs1.takeWhile Char.isDigit
  if ds.isEmpty then none
  else some (if neg then -(digitsToNat ds : ℤ) else (digitsToNat ds : ℤ))

/-- Truncation of a rational toward zero, the integer part that parseInt
reads off the decimal string form of a number. -/
def ratTrunc (q : ℚ) : ℤ :=
  if q < 0 then -⌊-q⌋ else ⌊q⌋

/-- Model of JS parseFloat(value) on a raw input. A finite number input
round-trips through its string form unchanged; null and undefined
stringify to non-numeric text and parse to NaN. -/
def jsParseFloat : RawInput → JSNum
  | .str s => strParseFloat s
  | .num q => JSNum.fin q
  | .null => JSNum.nan
  | .undefined => JSNum.nan

/-- Model of JS parseInt(value, 10) on a raw input. For a finite number in
the ordinary decimal-notation range this is truncation toward zero, since
the string form of such a number starts with its integer part. -/
def jsParseInt : RawInput → Option ℤ
  | .str s => strParseInt s
  | .num q => some (ratTrunc q)
  | .null => none
  | .undefined => none

/-- The isNaN test of the source. -/
def JSNum.isNaN : JSNum → Bool
  | .nan => true
  | _ => false

/-- The test `parsed < 0` of the source, over the full JS number domain. -/
def JSNum.ltZero : JSNum → Bool
  | .negInf => true
  | .fin q => decide (q < 0)
  | _ => false

/-- The test `parsed > c` of the source for a finite ceiling c. -/
def JSNum.gtCeiling : JSNum → ℚ → Bool
  | .posInf, _ => true
  | .fin q, c => decide (c < q)
  | _, _ => false

/-- The finite value carried by a parse result; the branches of the source
that read it are guarded so that only the `fin` case is ever reached. -/
def JSNum.toQ : JSNum → ℚ
  | .fin q => q
  | _ => 0

/-- The structured result every field validator returns. -/
structure ValidationResult (α : Type) where
  isValid : Bool
  value : α
  error : Option String
deriving DecidableEq

/-- validateCurrency from src/utils/validationUtils.js: empty input is
valid and normalizes to 0; otherwise parseFloat, then reject NaN, negative
values and values above one billion, in that order. -/
def validateCurrency (value : RawInput) (fieldName : String) :
    ValidationResult ℚ :=
  if value = .str "" ∨ value = .null ∨ value = .undefined then
    ⟨true, 0, none⟩
  else
    let parsed := jsParseFloat value
    if parsed.isNaN then
      ⟨false, 0, some (fieldName ++ " must be a valid number")⟩
    else if parsed.ltZero then
      ⟨false, 0, some (fieldName ++ " cannot be negative")⟩
    else if parsed.gtCeiling 1000000000 then
      ⟨false, 0, some (fieldName ++ " exceeds maximum allowed value")⟩
    else
      ⟨true, parsed.toQ, none⟩

/-- Options of validatePositiveInteger; `max = none` models the default
upper bound of +Infinity, which no parsed value exceeds. -/
structure ValidationOptions where
  min : ℤ := 0
  max : Option ℤ := none
  allowEmpty : Bool := true
deriving DecidableEq

/-- Thousands-grouping of a reversed digit list: after every third digit a
separator is inserted. -/
def groupRev : List Char → ℕ → List Char
  | [], _ => []
  | c :: cs, k =>
    if k = 3 then ',' :: c :: groupRev cs 1
    else c :: groupRev cs (k + 1)

/-- Model of Number.prototype.toLocaleString() for an integer in the
default en-US locale: decimal digits with thousands separators. -/
def intToLocaleString (n : ℤ) : String :=
  let grouped := String.mk ((groupRev (toString n.natAbs).toList.reverse 0).reverse)
  if n < 0 then "-" ++ grouped else grouped

/-- validatePositiveInteger from src/utils/validationUtils.js: empty input
follows the allowEmpty policy; otherwise parseInt, then reject NaN, values
below min and values above max, in that order. The comparison against the
default max of +Infinity is always false, so the `max = none` case goes
straight to the valid result. -/
def validatePositiveInteger (value : RawInput) (fieldName : String)
    (options : ValidationOptions) : ValidationResult (Option ℤ) :=
  if value = .str "" ∨ value = .null ∨ value = .undefined then
    if options.allowEmpty then
      ⟨true, none, none⟩
    else
      ⟨false, none, some (fieldName ++ " is required")⟩
  else
    match jsParseInt value with
    | none => ⟨false, none, some (fieldName ++ " must be a valid number")⟩
    | some parsed =>
      if parsed < options.min then
        ⟨false, none, some (fieldName ++ " must be at least " ++ toString options.min)⟩
      else
        match options.max with
        | some m =>
          if m < parsed then
            ⟨false, none, some (fieldName ++ " must be at most " ++ intToLocaleString m)⟩
          else
            ⟨true, some parsed, none⟩
        | none => ⟨true, some parsed, none⟩

/-- validateYear from src/utils/validationUtils.js; the wall-clock current
year read at call time is injected as a parameter. -/
def validateYear (currentYear : ℤ) (value : RawInput) (fieldName : String) :
    ValidationResult (Option ℤ) :=
  validatePositiveInteger value fieldName ⟨1900, some (currentYear + 2), true⟩

/-- validateOdometer from src/utils/validationUtils.js. -/
def validateOdometer (value : RawInput) (fieldName : String) :
    ValidationResult (Option ℤ) :=
  validatePositiveInteger value fieldName ⟨0, some 10000000, true⟩

/-- The raw price, shipping and duties bundle passed to validatePartCosts. -/
structure RawCosts where
  price : RawInput
  shipping : RawInput
  duties : RawInput
deriving DecidableEq

/-- The normalized cost aggregate produced on successful validation. -/
structure CostBundle where
  price : ℚ
  shipping : ℚ
  duties : ℚ
  total : ℚ
deriving DecidableEq

/-- The result shape of validatePartCosts. -/
structure PartCostsResult where
  isValid : Bool
  values : Option CostBundle
deriving DecidableEq

/-- validatePartCosts from src/utils/validationUtils.js. The toast sink is
modelled by a presence flag; the second component of the result is the
trace of messages passed to the warning channel, in order. The source
forwards each failed field result error verbatim, so the trace elements
keep the `Option String` type of the error field. -/
def validatePartCosts (costs : RawCosts) (toast : Bool) :
    PartCostsResult × List (Option String) :=
  let priceResult := validateCurrency costs.price "Price"
  if !priceResult.isValid then
    (⟨false, none⟩, if toast then [priceResult.error] else [])
  else
    let shippingResult := validateCurrency costs.shipping "Shipping"
    if !shippingResult.isValid then
      (⟨false, none⟩, if toast then [shippingResult.error] else [])
    else
      let dutiesResult := validateCurrency costs.duties "Duties"
      if !dutiesResult.isValid then
        (⟨false, none⟩, if toast then [dutiesResult.error] else [])
      else
        let total := priceResult.value + shippingResult.value + dutiesResult.value
        (⟨true, some ⟨priceResult.value, shippingResult.value, dutiesResult.value, total⟩⟩,
          [])

/-- The result shape of validateBudget. -/
structure BudgetResult where
  isValid : Bool
  value : ℚ
deriving DecidableEq

/-- validateBudget from src/utils/validationUtils.js, with the same sink
model as validatePartCosts. -/
def validateBudget (budget : RawInput) (toast : Bool) :
    BudgetResult × List (Option String) :=
  let result := validateCurrency budget "Budget"
  if !result.isValid then
    (⟨false, 0⟩, if toast then [result.error] else [])
  else
    (⟨true, result.value⟩, [])

/-- Holds of a character list on which a float parse cannot continue: it
is empty or starts with a character that is not a digit, not a decimal
point and not an exponent letter. -/
def stopsFloatB : List Char → Bool
  | [] => true
  | c :: _ => !c.isDigit && c ≠ '.' && c ≠ 'e' && c ≠ 'E'

/-- Feeding a normalized integer-validator value back as a raw input: the
null value becomes the JS null, an integer becomes a JS number. -/
def feedBack : Option ℤ → RawInput
  | none => RawInput.null
  | some n => RawInput.num (n : ℚ)

/-- C9: for every raw input, validateYear behaves identically to
validatePositiveInteger with min 1900, max currentYear + 2 (the current
year injected as a parameter) and allowEmpty true; and validateOdometer
behaves identically to validatePositiveInteger with min 0, max 10,000,000
and allowEmpty true. -/
theorem derived_validators_spec (currentYear : ℤ) (v : RawInput) (fn fn2 : String) :
    validateYear currentYear v fn
        = validatePositiveInteger v fn ⟨1900, some (currentYear + 2), true⟩
      ∧ validateOdometer v fn2
        = validatePositiveInteger v fn2 ⟨0, some 10000000, true⟩ :=
  ⟨rfl, rfl⟩

/-- C8: the validators are total functions of the model (they always
return a structured result, never an exception), and when the notification
sink is absent the warning call is skipped as a no-op: the trace is empty
and the structured result is the same one produced with a sink present. -/
theorem sink_optional_no_op (costs : RawCosts) (b : RawInput) :
    (validatePartCosts costs false).2 = []
  ∧ (validatePartCosts costs false).1 = (validatePartCosts costs true).1
  ∧ (validateBudget b false).2 = []
  ∧ (validateBudget b false).1 = (validateBudget b true).1 := by
  refine ⟨?_, ?_, ?_, ?_⟩ <;>
    simp only [validatePartCosts, validateBudget] <;>
    split <;> (try split) <;> (try split) <;> first | rfl | simp_all

/-- C6: validateBudget delegates to validateCurrency with label Budget; on
failure it sends exactly the currency error to the warning channel (when a
sink is present) and returns the invalid result with value 0; on success
it returns the normalized value and makes no sink call. -/
theorem validateBudget_spec (b : RawInput) (toast : Bool) :
    ((validateCurrency b "Budget").isValid = false →
      validateBudget b toast =
        (⟨false, 0⟩, if toast then [(validateCurrency b "Budget").error] else []))
  ∧ ((validateCurrency b "Budget").isValid = true →
      validateBudget b toast = (⟨true, (validateCurrency b "Budget").value⟩, [])) := by
  constructor <;> intro h <;> simp [validateBudget, h]

/-- Witness for C6 at the concrete input of the spec: budget -5 with a
sink present yields the negative-budget warning and the invalid result. -/
theorem validateBudget_spec_witness :
    validateBudget (.num (-5)) true = (⟨false, 0⟩, [some "Budget cannot be negative"]) := by
  rw [(validateBudget_spec (.num (-5)) true).1 (by decide)]
  decide

/-- C1: validatePartCosts validates price, then shipping, then duties; on
the first invalid field it sends exactly that field's error message to the
warning channel (once, when a sink is present), returns the invalid result
with null values, and never reaches the later fields, so their errors are
not surfaced in the same call. -/
theorem validatePartCosts_shortCircuit (costs : RawCosts) (toast : Bool) :
    ((validateCurrency costs.price "Price").isValid = false →
      validatePartCosts costs toast =
        (⟨false, none⟩,
          if toast then [(validateCurrency costs.price "Price").error] else []))
  ∧ ((validateCurrency costs.price "Price").isValid = true →
     (validateCurrency costs.shipping "Shipping").isValid = false →
      validatePartCosts costs toast =
        (⟨false, none⟩,
          if toast then [(validateCurrency costs.shipping "Shipping").error] else []))
  ∧ ((validateCurrency costs.price "Price").isValid = true →
     (validateCurrency costs.shipping "Shipping").isValid = true →
     (validateCurrency costs.duties "Duties").isValid = false →
      validatePartCosts costs toast =
        (⟨false, none⟩,
          if toast then [(validateCurrency costs.duties "Duties").error] else [])) := by
  refine ⟨fun h1 => ?_, fun h1 h2 => ?_, fun h1 h2 h3 => ?_⟩ <;>
    simp [validatePartCosts, *]

/-- Witness for C1 at the concrete input of the spec: price 10, shipping
5, duties abc; the sink receives exactly one warning, the duties error. -/
theorem validatePartCosts_shortCircuit_witness :
    validatePartCosts ⟨.str "10", .str "5", .str "abc"⟩ true =
      (⟨false, none⟩, [some "Duties must be a valid number"]) := by
  rw [(validatePartCosts_shortCircuit ⟨.str "10", .str "5", .str "abc"⟩ true).2.2
    (by decide) (by decide) (by decide)]
  decide

/-- C2: when all three currency validations succeed, validatePartCosts
makes no sink call and returns the normalized (parsed) price, shipping and
duties together with their exact sum as total. -/
theorem validatePartCosts_success (costs : RawCosts) (toast : Bool)
    (hp : (validateCurrency costs.price "Price").isValid = true)
    (hs : (validateCurrency costs.shipping "Shipping").isValid = true)
    (hd : (validateCurrency costs.duties "Duties").isValid = true) :
    validatePartCosts costs toast =
      (⟨true, some ⟨(validateCurrency costs.price "Price").value,
                    (validateCurrency costs.shipping "Shipping").value,
                    (validateCurrency costs.duties "Duties").value,
                    (validateCurrency costs.price "Price").value
                      + (validateCurrency costs.shipping "Shipping").value
                      + (validateCurrency costs.duties "Duties").value⟩⟩, []) := by
  simp [validatePartCosts, hp, hs, hd]

/-- Witness for C2 at the concrete input of the spec: price 10.50,
shipping 2, duties 0 normalize to 10.5, 2, 0 with total 12.5. -/
theorem validatePartCosts_success_witness :
    validatePartCosts ⟨.str "10.50", .str "2", .str "0"⟩ true =
      (⟨true, some ⟨21 / 2, 2, 0, 25 / 2⟩⟩, []) := by
  rw [validatePartCosts_success ⟨.str "10.50", .str "2", .str "0"⟩ true
    (by decide) (by decide) (by decide)]
  decide

/-- C3: validateCurrency matches the reference definition clause by
clause: empty, null or undefined input is valid with value 0; otherwise a
failed parse gives the not-a-number error, a negative parse the negative
error, a parse strictly above one billion the ceiling error, and any
finite non-negative parse of at most one billion is valid with the parsed
value and no error. -/
theorem validateCurrency_spec (v : RawInput) (fn : String) :
    ((v = .str "" ∨ v = .null ∨ v = .undefined) →
       validateCurrency v fn = ⟨true, 0, none⟩)
  ∧ (¬(v = .str "" ∨ v = .null ∨ v = .undefined) →
      ((jsParseFloat v).isNaN = true →
         validateCurrency v fn = ⟨false, 0, some (fn ++ " must be a valid number")⟩)
    ∧ ((jsParseFloat v).isNaN = false → (jsParseFloat v).ltZero = true →
         validateCurrency v fn = ⟨false, 0, some (fn ++ " cannot be negative")⟩)
    ∧ ((jsParseFloat v).isNaN = false → (jsParseFloat v).ltZero = false →
       (jsParseFloat v).gtCeiling 1000000000 = true →
         validateCurrency v fn = ⟨false, 0, some (fn ++ " exceeds maximum allowed value")⟩)
    ∧ (∀ q : ℚ, jsParseFloat v = .fin q → 0 ≤ q → q ≤ 1000000000 →
         validateCurrency v fn = ⟨true, q, none⟩)) := by
  refine ⟨fun h => ?_, fun h => ⟨fun h1 => ?_, fun h1 h2 => ?_, fun h1 h2 h3 => ?_,
    fun q hq hq0 hq1 => ?_⟩⟩
  · unfold validateCurrency
    rw [if_pos h]
  · unfold validateCurrency
    rw [if_neg h]
    simp [h1]
  · unfold validateCurrency
    rw [if_neg h]
    simp [h1, h2]
  · unfold validateCurrency
    rw [if_neg h]
    simp [h1, h2, h3]
  · unfold validateCurrency
    rw [if_neg h]
    simp [hq, JSNum.isNaN, JSNum.ltZero, JSNum.gtCeiling, JSNum.toQ,
      not_lt.mpr hq0, not_lt.mpr hq1]

/-- Witness for C3, one concrete input per clause: empty, non-numeric,
negative, above the ceiling, and an ordinary decimal. -/
theorem validateCurrency_spec_witness :
    validateCurrency (.str "") "Value" = ⟨true, 0, none⟩
  ∧ validateCurrency (.str "abc") "Value" = ⟨false, 0, some "Value must be a valid number"⟩
  ∧ validateCurrency (.str "-5") "Value" = ⟨false, 0, some "Value cannot be negative"⟩
  ∧ validateCurrency (.str "2000000000") "Value"
      = ⟨false, 0, some "Value exceeds maximum allowed value"⟩
  ∧ validateCurrency (.str "10.50") "Value" = ⟨true, 21 / 2, none⟩ :=
  ⟨(validateCurrency_spec (.str "") "Value").1 (by decide),
   (((validateCurrency_spec (.str "abc") "Value").2 (by decide)).1 (by decide)).trans (by decide),
   (((validateCurrency_spec (.str "-5") "Value").2 (by decide)).2.1 (by decide) (by decide)).trans
     (by decide),
   (((validateCurrency_spec (.str "2000000000") "Value").2 (by decide)).2.2.1 (by decide)
     (by decide) (by decide)).trans (by decide),
   ((validateCurrency_spec (.str "10.50") "Value").2 (by decide)).2.2.2 (21 / 2) (by decide)
     (by decide) (by decide)⟩

/-- C4: validatePositiveInteger matches the reference definition clause by
clause, with options defaulting to min 0, max +Infinity (`none`) and
allowEmpty true: empty input follows the allowEmpty policy; a failed parse
gives the not-a-number error; a parse below min the at-least error with
the plain min; a parse at or above min but above a finite max the at-most
error with the thousands-separated max; otherwise the parsed integer is
returned as valid. -/
theorem validatePositiveInteger_spec (v : RawInput) (fn : String) (opts : ValidationOptions) :
    ({} : ValidationOptions) = ⟨0, none, true⟩
  ∧ ((v = .str "" ∨ v = .null ∨ v = .undefined) →
      (opts.allowEmpty = true →
        validatePositiveInteger v fn opts = ⟨true, none, none⟩)
    ∧ (opts.allowEmpty = false →
        validatePositiveInteger v fn opts = ⟨false, none, some (fn ++ " is required")⟩))
  ∧ (¬(v = .str "" ∨ v = .null ∨ v = .undefined) →
      (jsParseInt v = none →
        validatePositiveInteger v fn opts
          = ⟨false, none, some (fn ++ " must be a valid number")⟩)
    ∧ (∀ n : ℤ, jsParseInt v = some n → n < opts.min →
        validatePositiveInteger v fn opts
          = ⟨false, none, some (fn ++ " must be at least " ++ toString opts.min)⟩)
    ∧ (∀ n m : ℤ, jsParseInt v = some n → opts.min ≤ n → opts.max = some m → m < n →
        validatePositiveInteger v fn opts
          = ⟨false, none, some (fn ++ " must be at most " ++ intToLocaleString m)⟩)
    ∧ (∀ n : ℤ, jsParseInt v = some n → opts.min ≤ n →
        (∀ m : ℤ, opts.max = some m → n ≤ m) →
        validatePositiveInteger v fn opts = ⟨true, some n, none⟩)) := by
  refine ⟨rfl, fun h => ⟨fun ha => ?_, fun ha => ?_⟩, fun h =>
    ⟨fun h1 => ?_, fun n h1 h2 => ?_, fun n m h1 h2 h3 h4 => ?_, fun n h1 h2 h3 => ?_⟩⟩
  · simp only [validatePositiveInteger]
    rw [if_pos h, if_pos ha]
  · simp only [validatePositiveInteger]
    rw [if_pos h, if_neg (by simp [ha])]
  · simp only [validatePositiveInteger]
    rw [if_neg h, h1]
  · simp only [validatePositiveInteger]
    rw [if_neg h, h1]
    simp only []
    rw [if_pos h2]
  · simp only [validatePositiveInteger]
    rw [if_neg h, h1]
    simp only []
    rw [if_neg (not_lt.mpr h2), h3]
    simp only []
    rw [if_pos h4]
  · simp only [validatePositiveInteger]
    rw [if_neg h, h1]
    simp only []
    rw [if_neg (not_lt.mpr h2)]
    cases hmx : opts.max with
    | none => rfl
    | some m =>
      simp only []
      rw [if_neg (not_lt.mpr (h3 m hmx))]

/-- Witness for C4, one concrete input per clause: empty allowed, empty
required, non-numeric, below min, above a finite max (with separator), and
an ordinary in-range value truncated by parseInt. -/
theorem validatePositiveInteger_spec_witness :
    validatePositiveInteger (.str "") "Value" {} = ⟨true, none, none⟩
  ∧ validatePositiveInteger (.str "") "Value" ⟨0, none, false⟩
      = ⟨false, none, some "Value is required"⟩
  ∧ validatePositiveInteger (.str "abc") "Value" {}
      = ⟨false, none, some "Value must be a valid number"⟩
  ∧ validatePositiveInteger (.str "1850") "Year" ⟨1900, some 2027, true⟩
      = ⟨false, none, some "Year must be at least 1900"⟩
  ∧ validatePositiveInteger (.str "2050") "Year" ⟨1900, some 2027, true⟩
      = ⟨false, none, some "Year must be at most 2,027"⟩
  ∧ validatePositiveInteger (.str "3.7") "Value" {} = ⟨true, some 3, none⟩ :=
  ⟨((validatePositiveInteger_spec (.str "") "Value" {}).2.1 (by decide)).1 (by decide),
   (((validatePositiveInteger_spec (.str "") "Value" ⟨0, none, false⟩).2.1 (by decide)).2
     (by decide)).trans (by decide),
   (((validatePositiveInteger_spec (.str "abc") "Value" {}).2.2 (by decide)).1
     (by decide)).trans (by decide),
   (((validatePositiveInteger_spec (.str "1850") "Year" ⟨1900, some 2027, true⟩).2.2
     (by decide)).2.1 1850 (by decide) (by decide)).trans (by decide),
   (((validatePositiveInteger_spec (.str "2050") "Year" ⟨1900, some 2027, true⟩).2.2
     (by decide)).2.2.1 2050 2027 (by decide) (by decide) rfl (by decide)).trans (by decide),
   ((validatePositiveInteger_spec (.str "3.7") "Value" {}).2.2 (by decide)).2.2.2 3
     (by decide) (by decide) (fun m hm => nomatch hm)⟩

/-- Appending a nonempty string on the right keeps a string nonempty. -/
theorem append_ne_empty_right (a s : String) (hs : s ≠ "") : a ++ s ≠ "" := by
  intro hc
  apply hs
  have hd := congrArg String.data hc
  rw [String.data_append] at hd
  exact String.ext (List.append_eq_nil.mp hd).2

/-- A nonempty string stays nonempty after appending on the right. -/
theorem append_ne_empty_left (a s : String) (ha : a ≠ "") : a ++ s ≠ "" := by
  intro hc
  apply ha
  have hd := congrArg String.data hc
  rw [String.data_append] at hd
  exact String.ext (List.append_eq_nil.mp hd).1

/-- Every result of validateCurrency is either valid with no error, or
invalid with value 0 and an error built from the field name and a nonempty
message suffix. -/
theorem validateCurrency_shape (v : RawInput) (fn : String) :
    (∃ q, validateCurrency v fn = ⟨true, q, none⟩)
  ∨ (∃ s, s ≠ "" ∧ validateCurrency v fn = ⟨false, 0, some (fn ++ s)⟩) := by
  simp only [validateCurrency]
  split
  · exact Or.inl ⟨0, rfl⟩
  · split
    · exact Or.inr ⟨" must be a valid number", by decide, rfl⟩
    · split
      · exact Or.inr ⟨" cannot be negative", by decide, rfl⟩
      · split
        · exact Or.inr ⟨" exceeds maximum allowed value", by decide, rfl⟩
        · exact Or.inl ⟨_, rfl⟩

/-- Every result of validatePositiveInteger is either valid with no
error, or invalid with value null and an error built from the field name
and a nonempty message suffix. -/
theorem validatePositiveInteger_shape_err (v : RawInput) (fn : String)
    (opts : ValidationOptions) :
    (∃ n, validatePositiveInteger v fn opts = ⟨true, n, none⟩)
  ∨ (∃ s, s ≠ "" ∧ validatePositiveInteger v fn opts = ⟨false, none, some (fn ++ s)⟩) := by
  simp only [validatePositiveInteger]
  split
  · split
    · exact Or.inl ⟨none, rfl⟩
    · exact Or.inr ⟨" is required", by decide, rfl⟩
  · split
    · exact Or.inr ⟨" must be a valid number", by decide, rfl⟩
    · split
      · exact Or.inr ⟨" must be at least " ++ toString opts.min,
          append_ne_empty_left _ _ (by decide), by rw [← String.append_assoc]⟩
      · split
        · rename_i m hmx
          split
          · exact Or.inr ⟨" must be at most " ++ intToLocaleString m,
              append_ne_empty_left _ _ (by decide), by rw [← String.append_assoc]⟩
          · exact Or.inl ⟨_, rfl⟩
        · exact Or.inl ⟨_, rfl⟩

/-- C5: every result of validateCurrency and validatePositiveInteger
satisfies the ValidationResult invariant: a valid result carries no error;
an invalid result carries the designated default value (0 for currency,
null for integers) and a non-empty error message. -/
theorem validationResult_invariant (v : RawInput) (fn : String) (opts : ValidationOptions) :
    ((validateCurrency v fn).isValid = true → (validateCurrency v fn).error = none)
  ∧ ((validateCurrency v fn).isValid = false →
      (validateCurrency v fn).value = 0
      ∧ ∃ m, (validateCurrency v fn).error = some m ∧ m ≠ "")
  ∧ ((validatePositiveInteger v fn opts).isValid = true →
      (validatePositiveInteger v fn opts).error = none)
  ∧ ((validatePositiveInteger v fn opts).isValid = false →
      (validatePositiveInteger v fn opts).value = none
      ∧ ∃ m, (validatePositiveInteger v fn opts).error = some m ∧ m ≠ "") := by
  refine ⟨fun h => ?_, fun h => ?_, fun h => ?_, fun h => ?_⟩
  · obtain ⟨q, hc⟩ | ⟨s, hs, hc⟩ := validateCurrency_shape v fn
    · rw [hc]
    · rw [hc] at h
      simp at h
  · obtain ⟨q, hc⟩ | ⟨s, hs, hc⟩ := validateCurrency_shape v fn
    · rw [hc] at h
      simp at h
    · rw [hc]
      exact ⟨rfl, fn ++ s, rfl, append_ne_empty_right fn s hs⟩
  · obtain ⟨n, hp⟩ | ⟨s, hs, hp⟩ := validatePositiveInteger_shape_err v fn opts
    · rw [hp]
    · rw [hp] at h
      simp at h
  · obtain ⟨n, hp⟩ | ⟨s, hs, hp⟩ := validatePositiveInteger_shape_err v fn opts
    · rw [hp] at h
      simp at h
    · rw [hp]
      exact ⟨rfl, fn ++ s, rfl, append_ne_empty_right fn s hs⟩

/-- Witness for C5: the invariant applied to a valid and an invalid
concrete result of each validator. -/
theorem validationResult_invariant_witness :
    (validateCurrency (.str "10") "Value").error = none
  ∧ (validateCurrency (.str "abc") "Value").value = 0
  ∧ (validatePositiveInteger (.str "10") "Value" {}).error = none
  ∧ (validatePositiveInteger (.str "abc") "Value" {}).value = none :=
  ⟨(validationResult_invariant (.str "10") "Value" {}).1 (by decide),
   ((validationResult_invariant (.str "abc") "Value" {}).2.1 (by decide)).1,
   (validationResult_invariant (.str "10") "Value" {}).2.2.1 (by decide),
   ((validationResult_invariant (.str "abc") "Value" {}).2.2.2 (by decide)).1⟩

/-- Truncation toward zero is the identity on integers embedded in ℚ. -/
theorem ratTrunc_intCast (n : ℤ) : ratTrunc (n : ℚ) = n := by
  unfold ratTrunc
  split
  · rw [← Int.cast_neg, Int.floor_intCast]
    omega
  · exact Int.floor_intCast n

/-- A number input whose value is in the accepted range is valid for
validateCurrency, with itself as the normalized value. -/
theorem validateCurrency_num_fixed (q : ℚ) (fn : String) (h0 : 0 ≤ q)
    (h1 : q ≤ 1000000000) :
    validateCurrency (.num q) fn = ⟨true, q, none⟩ := by
  simp only [validateCurrency]
  rw [if_neg (by simp)]
  simp [jsParseFloat, JSNum.isNaN, JSNum.ltZero, JSNum.gtCeiling, JSNum.toQ,
    not_lt.mpr h0, not_lt.mpr h1]

/-- Every valid result of validateCurrency carries a value between 0 and
one billion. -/
theorem validateCurrency_valid_bounds (v : RawInput) (fn : String) :
    (validateCurrency v fn).isValid = false
  ∨ (∃ q, 0 ≤ q ∧ q ≤ 1000000000 ∧ validateCurrency v fn = ⟨true, q, none⟩) := by
  simp only [validateCurrency]
  split
  · exact Or.inr ⟨0, le_refl 0, by norm_num, rfl⟩
  · split
    · exact Or.inl rfl
    · split
      · exact Or.inl rfl
      · split
        · exact Or.inl rfl
        · rename_i h1 h2 h3
          rcases hp : jsParseFloat v with _ | _ | _ | q
          · rw [hp] at h1
            simp [JSNum.isNaN] at h1
          · rw [hp] at h3
            simp [JSNum.gtCeiling] at h3
          · rw [hp] at h2
            simp [JSNum.ltZero] at h2
          · rw [hp] at h2 h3
            simp only [JSNum.ltZero, JSNum.gtCeiling, decide_eq_true_eq] at h2 h3
            exact Or.inr ⟨q, not_lt.mp h2, not_lt.mp h3, rfl⟩

/-- An integer input within the configured bounds is valid for
validatePositiveInteger, with itself as the normalized value. -/
theorem validatePositiveInteger_num_fixed (n : ℤ) (fn : String) (opts : ValidationOptions)
    (hmin : opts.min ≤ n) (hmax : ∀ m : ℤ, opts.max = some m → n ≤ m) :
    validatePositiveInteger (.num (n : ℚ)) fn opts = ⟨true, some n, none⟩ := by
  simp only [validatePositiveInteger]
  rw [if_neg (by simp)]
  rw [show jsParseInt (.num (n : ℚ)) = some n by simp [jsParseInt, ratTrunc_intCast]]
  simp only []
  rw [if_neg (not_lt.mpr hmin)]
  cases hmx : opts.max with
  | none => rfl
  | some m =>
    simp only []
    rw [if_neg (not_lt.mpr (hmax m hmx))]

/-- A null input is valid with value null whenever empties are allowed. -/
theorem validatePositiveInteger_null_fixed (fn : String) (opts : ValidationOptions)
    (ha : opts.allowEmpty = true) :
    validatePositiveInteger .null fn opts = ⟨true, none, none⟩ := by
  simp [validatePositiveInteger, ha]

/-- Every valid result of validatePositiveInteger is either the null
result with empties allowed, or carries an integer within the bounds. -/
theorem validatePositiveInteger_valid_bounds (v : RawInput) (fn : String)
    (opts : ValidationOptions) :
    (validatePositiveInteger v fn opts).isValid = false
  ∨ (opts.allowEmpty = true ∧ validatePositiveInteger v fn opts = ⟨true, none, none⟩)
  ∨ (∃ n : ℤ, opts.min ≤ n ∧ (∀ m : ℤ, opts.max = some m → n ≤ m)
      ∧ validatePositiveInteger v fn opts = ⟨true, some n, none⟩) := by
  simp only [validatePositiveInteger]
  split
  · split
    · rename_i ha
      exact Or.inr (Or.inl ⟨ha, rfl⟩)
    · exact Or.inl rfl
  · split
    · exact Or.inl rfl
    · rename_i parsed hp
      split
      · exact Or.inl rfl
      · rename_i hmin
        split
        · rename_i m hmx
          split
          · exact Or.inl rfl
          · rename_i hm2
            refine Or.inr (Or.inr ⟨parsed, not_lt.mp hmin, fun m2 hm2eq => ?_, rfl⟩)
            rw [hmx] at hm2eq
            cases hm2eq
            exact not_lt.mp hm2
        · rename_i hmx
          refine Or.inr (Or.inr ⟨parsed, not_lt.mp hmin, fun m2 hm2eq => ?_, rfl⟩)
          rw [hmx] at hm2eq
          cases hm2eq

/-- C7: feeding the normalized value of a valid result back into the same
validator, with the same field label and options, reproduces the result
exactly, for both validateCurrency and validatePositiveInteger. -/
theorem validators_idempotent (v : RawInput) (fn : String) (opts : ValidationOptions) :
    ((validateCurrency v fn).isValid = true →
      validateCurrency (.num (validateCurrency v fn).value) fn = validateCurrency v fn)
  ∧ ((validatePositiveInteger v fn opts).isValid = true →
      validatePositiveInteger (feedBack (validatePositiveInteger v fn opts).value) fn opts
        = validatePositiveInteger v fn opts) := by
  constructor
  · intro h
    obtain hf | ⟨q, h0, h1, hq⟩ := validateCurrency_valid_bounds v fn
    · rw [h] at hf
      cases hf
    · rw [hq]
      exact validateCurrency_num_fixed q fn h0 h1
  · intro h
    obtain hf | ⟨ha, heq⟩ | ⟨n, hmin, hmax, heq⟩ :=
      validatePositiveInteger_valid_bounds v fn opts
    · rw [h] at hf
      cases hf
    · rw [heq]
      exact validatePositiveInteger_null_fixed fn opts ha
    · rw [heq]
      exact validatePositiveInteger_num_fixed n fn opts hmin hmax

/-- Witness for C7: idempotence applied to the valid results of a decimal
currency input, a truncated integer input, and an empty input. -/
theorem validators_idempotent_witness :
    validateCurrency (.num (validateCurrency (.str "10.50") "Value").value) "Value"
      = validateCurrency (.str "10.50") "Value"
  ∧ validatePositiveInteger (feedBack (validatePositiveInteger (.str "3.7") "Value" {}).value)
      "Value" {} = validatePositiveInteger (.str "3.7") "Value" {}
  ∧ validatePositiveInteger (feedBack (validatePositiveInteger (.str "") "Value" {}).value)
      "Value" {} = validatePositiveInteger (.str "") "Value" {} :=
  ⟨(validators_idempotent (.str "10.50") "Value" {}).1 (by decide),
   (validators_idempotent (.str "3.7") "Value" {}).2 (by decide),
   (validators_idempotent (.str "") "Value" {}).2 (by decide)⟩

/-- A digit character is not JS whitespace. -/
theorem isJsSpace_of_digit (c : Char) (h : c.isDigit = true) : isJsSpace c = false := by
  unfold isJsSpace
  simp only [decide_eq_false_iff_not]
  rintro (rfl | rfl | rfl | rfl) <;> exact absurd h (by decide)

/-- A digit character carries no sign, so stripSign is the identity. -/
theorem stripSign_digit (d : Char) (l : List Char) (h : d.isDigit = true) :
    stripSign (d :: l) = (false, d :: l) := by
  simp only [stripSign]
  rw [if_neg (by intro hc; subst hc; exact absurd h (by decide)),
    if_neg (by intro hc; subst hc; exact absurd h (by decide))]

/-- A list starting with a digit is not a prefix of the Infinity literal. -/
theorem take8_ne_infinity (d : Char) (l : List Char) (h : d.isDigit = true) :
    ¬ (d :: l).take 8 = "Infinity".toList := by
  intro heq
  rw [show (d :: l).take 8 = d :: l.take 7 from rfl,
    show "Infinity".toList = 'I' :: "nfinity".toList from rfl] at heq
  injection heq with h3 _
  subst h3
  exact absurd h (by decide)

/-- takeWhile and dropWhile split an all-digit prefix off exactly at the
first non-digit. -/
theorem takeWhile_digits_append (ds rest : List Char)
    (hd : ∀ c ∈ ds, c.isDigit = true)
    (hr : ∀ c, rest.head? = some c → c.isDigit = false) :
    (ds ++ rest).takeWhile Char.isDigit = ds
    ∧ (ds ++ rest).dropWhile Char.isDigit = rest := by
  induction ds with
  | nil =>
    cases rest with
    | nil => exact ⟨rfl, rfl⟩
    | cons c cs =>
      have hc := hr c rfl
      constructor
      · simp [List.takeWhile_cons, hc]
      · simp [List.dropWhile_cons, hc]
  | cons d ds ih =>
    have hdd := hd d (List.mem_cons_self d ds)
    have ihh := ih fun c hc2 => hd c (List.mem_cons_of_mem d hc2)
    constructor
    · simp [List.takeWhile_cons, hdd, ihh.1]
    · simp [List.dropWhile_cons, hdd, ihh.2]

/-- A stopped tail contributes no exponent. -/
theorem parseExponent_stopped (rest : List Char) (hs : stopsFloatB rest = true) :
    parseExponent rest = 0 := by
  cases rest with
  | nil => rfl
  | cons c cs =>
    simp only [stopsFloatB, Bool.and_eq_true, Bool.not_eq_true', decide_eq_true_eq] at hs
    simp only [parseExponent]
    rw [if_neg (by rintro (rfl | rfl) <;> simp at hs)]

/-- The head of a stopped tail is not a digit. -/
theorem stopsFloatB_head (rest : List Char) (hs : stopsFloatB rest = true) :
    ∀ c, rest.head? = some c → c.isDigit = false := by
  intro c hc
  cases rest with
  | nil => cases hc
  | cons c0 cs =>
    cases hc
    simp only [stopsFloatB, Bool.and_eq_true, Bool.not_eq_true', decide_eq_true_eq] at hs
    exact hs.1.1.1

/-- parseUnsigned of an all-digit list followed by a stopped tail yields
exactly the value of the digit prefix. -/
theorem parseUnsigned_digits (ds rest : List Char) (hne : ds ≠ [])
    (hd : ∀ c ∈ ds, c.isDigit = true) (hs : stopsFloatB rest = true) :
    parseUnsigned (ds ++ rest) = some (digitsToNat ds : ℚ) := by
  have htd := takeWhile_digits_append ds rest hd (stopsFloatB_head rest hs)
  have hie : ds.isEmpty = false := by
    cases ds with
    | nil => exact absurd rfl hne
    | cons d l => rfl
  have hexp := parseExponent_stopped rest hs
  simp only [parseUnsigned]
  rw [htd.1, htd.2]
  cases rest with
  | nil => simp [hie, hexp]
  | cons c cs =>
    have hc : ¬ c = '.' := by
      simp only [stopsFloatB, Bool.and_eq_true, Bool.not_eq_true', decide_eq_true_eq] at hs
      exact hs.1.1.2
    split
    · rename_i r2 heq
      injection heq with h1 _
      exact absurd h1 hc
    · simp [hie, hexp]

/-- strParseFloat of an all-digit prefix followed by a stopped tail is the
finite value of the prefix: trailing garbage does not spoil the parse. -/
theorem strParseFloat_digits (ds rest : List Char) (hne : ds ≠ [])
    (hd : ∀ c ∈ ds, c.isDigit = true) (hs : stopsFloatB rest = true) :
    strParseFloat (String.mk (ds ++ rest)) = JSNum.fin (digitsToNat ds : ℚ) := by
  obtain ⟨d, ds2, rfl⟩ : ∃ d ds2, ds = d :: ds2 := by
    cases ds with
    | nil => exact absurd rfl hne
    | cons d ds2 => exact ⟨d, ds2, rfl⟩
  have hdd : d.isDigit = true := hd d (List.mem_cons_self d ds2)
  simp only [strParseFloat]
  rw [show (String.mk ((d :: ds2) ++ rest)).toList = d :: (ds2 ++ rest) from rfl]
  rw [List.dropWhile_cons, isJsSpace_of_digit d hdd]
  simp only [Bool.false_eq_true, if_false]
  rw [stripSign_digit d (ds2 ++ rest) hdd]
  simp only []
  rw [if_neg (take8_ne_infinity d (ds2 ++ rest) hdd)]
  rw [show d :: (ds2 ++ rest) = (d :: ds2) ++ rest from rfl]
  rw [parseUnsigned_digits (d :: ds2) rest hne hd hs]
  rfl

/-- strParseInt of an all-digit prefix followed by a non-digit tail is the
integer value of the prefix. -/
theorem strParseInt_digits (ds rest : List Char) (hne : ds ≠ [])
    (hd : ∀ c ∈ ds, c.isDigit = true)
    (hr : ∀ c, rest.head? = some c → c.isDigit = false) :
    strParseInt (String.mk (ds ++ rest)) = some (digitsToNat ds : ℤ) := by
  obtain ⟨d, ds2, rfl⟩ : ∃ d ds2, ds = d :: ds2 := by
    cases ds with
    | nil => exact absurd rfl hne
    | cons d ds2 => exact ⟨d, ds2, rfl⟩
  have hdd : d.isDigit = true := hd d (List.mem_cons_self d ds2)
  have htd := takeWhile_digits_append (d :: ds2) rest hd hr
  simp only [strParseInt]
  rw [show (String.mk ((d :: ds2) ++ rest)).toList = d :: (ds2 ++ rest) from rfl]
  rw [List.dropWhile_cons, isJsSpace_of_digit d hdd]
  simp only [Bool.false_eq_true, if_false]
  rw [stripSign_digit d (ds2 ++ rest) hdd]
  simp only []
  rw [show d :: (ds2 ++ rest) = (d :: ds2) ++ rest from rfl, htd.1]
  rfl

/-- C10: lenient prefix parsing at the public interface. A string made of
a numeric digit prefix followed by characters on which the parse stops is
accepted by validateCurrency with the value of the prefix (when within the
ceiling); and a decimal string digits-dot-digits is accepted by
validatePositiveInteger (default options) with the integer prefix before
the decimal point, rather than being rejected as non-numeric. -/
theorem lenient_parse :
    (∀ ds rest : List Char, ds ≠ [] → ds.all Char.isDigit = true →
      stopsFloatB rest = true → (digitsToNat ds : ℚ) ≤ 1000000000 →
      validateCurrency (.str (String.mk (ds ++ rest))) "Value"
        = ⟨true, (digitsToNat ds : ℚ), none⟩)
  ∧ (∀ a b : List Char, a ≠ [] → a.all Char.isDigit = true →
      validatePositiveInteger (.str (String.mk (a ++ '.' :: b))) "Value" {}
        = ⟨true, some (digitsToNat a : ℤ), none⟩) := by
  constructor
  · intro ds rest hne hdall hs hb
    have hd : ∀ c ∈ ds, c.isDigit = true := List.all_eq_true.mp hdall
    have hstr : ¬(RawInput.str (String.mk (ds ++ rest)) = .str ""
        ∨ RawInput.str (String.mk (ds ++ rest)) = .null
        ∨ RawInput.str (String.mk (ds ++ rest)) = .undefined) := by
      rintro (h | h | h)
      · have hdata := congrArg String.data (RawInput.str.inj h)
        exact hne (List.append_eq_nil.mp hdata).1
      · cases h
      · cases h
    simp only [validateCurrency]
    rw [if_neg hstr]
    rw [show jsParseFloat (.str (String.mk (ds ++ rest)))
        = strParseFloat (String.mk (ds ++ rest)) from rfl,
      strParseFloat_digits ds rest hne hd hs]
    simp [JSNum.isNaN, JSNum.ltZero, JSNum.gtCeiling, JSNum.toQ, not_lt.mpr hb,
      not_lt.mpr (show (0 : ℚ) ≤ (digitsToNat ds : ℚ) from Nat.cast_nonneg _)]
  · intro a b hne hdall
    have hd : ∀ c ∈ a, c.isDigit = true := List.all_eq_true.mp hdall
    have hr : ∀ c, ('.' :: b).head? = some c → c.isDigit = false := by
      intro c hc
      cases hc
      decide
    have hstr : ¬(RawInput.str (String.mk (a ++ '.' :: b)) = .str ""
        ∨ RawInput.str (String.mk (a ++ '.' :: b)) = .null
        ∨ RawInput.str (String.mk (a ++ '.' :: b)) = .undefined) := by
      rintro (h | h | h)
      · have hdata := congrArg String.data (RawInput.str.inj h)
        exact hne (List.append_eq_nil.mp hdata).1
      · cases h
      · cases h
    simp only [validatePositiveInteger]
    rw [if_neg hstr]
    rw [show jsParseInt (.str (String.mk (a ++ '.' :: b)))
        = strParseInt (String.mk (a ++ '.' :: b)) from rfl,
      strParseInt_digits a ('.' :: b) hne hd hr]
    simp only []
    rw [if_neg (show ¬((digitsToNat a : ℤ) < ({} : ValidationOptions).min) from
      not_lt.mpr (Int.natCast_nonneg _))]

/-- Witness for C10 at the concrete inputs of the claim: the string 12abc
passes currency validation with value 12, and the decimal string 3.7
passes integer validation with value 3. -/
theorem lenient_parse_witness :
    validateCurrency (.str "12abc") "Value" = ⟨true, 12, none⟩
  ∧ validatePositiveInteger (.str "3.7") "Value" {} = ⟨true, some 3, none⟩ := by
  constructor
  · exact (lenient_parse.1 ['1', '2'] ['a', 'b', 'c'] (by decide) (by decide) (by decide)
      (by decide)).trans (by decide)
  · exact (lenient_parse.2 ['3'] ['7'] (by decide) (by decide)).trans (by decide)

end PartsTracker
